import Mathlib

/-!
Shallow embedding of `params/party-address.go` (SCCP Called/Calling Party
Address codec) and proofs about it.

Modelling conventions:
* Go byte buffers are `List Nat` (each element a byte value); Go `uint8` /
  `uint16` / non-negative `int` values are `Nat`, with an explicit `% 256`
  (resp. `% 65536`) exactly where the Go source performs a `uint8(...)`
  (resp. `uint16(...)`) conversion.
* A fallible Go function returning `error` becomes `Except UErr α`.
* The decoder is additionally wrapped in `Option`: a would-be out-of-bounds
  index or slice (a Go panic) yields `none`, so "the decoder never panics"
  is "the result is never `none`".
-/

/-- Error values returned by the decoder: `truncated` models Go's
`io.ErrUnexpectedEOF`, `misfit` models `errors.New("sccp: party address
length misfit")`.  They are distinct error values, as in the source. -/
inductive UErr where
  | truncated
  | misfit
deriving DecidableEq

deriving instance DecidableEq for Except

/-- The `GlobalTitle` struct of the source.  `NumberingPlan` and
`EncodingScheme` are Go `int` fields; the source only ever stores
non-negative values in them, so they are modelled as `Nat`. -/
structure GlobalTitle where
  TranslationType : Nat
  NumberingPlan : Nat
  EncodingScheme : Nat
  NatureOfAddressIndicator : Nat
  GlobalTitleInfo : List Nat
deriving DecidableEq

/-- The `PartyAddress` struct of the source; the Go struct embeds
`GlobalTitle`, modelled here with `extends`. -/
structure PartyAddress extends GlobalTitle where
  Length : Nat
  Indicator : Nat
  SignalingPointCode : Nat
  SubsystemNumber : Nat
deriving DecidableEq

namespace PartyAddress

/-- The Go zero value `new(PartyAddress)`. -/
def empty : PartyAddress :=
  { TranslationType := 0, NumberingPlan := 0, EncodingScheme := 0,
    NatureOfAddressIndicator := 0, GlobalTitleInfo := [],
    Length := 0, Indicator := 0, SignalingPointCode := 0, SubsystemNumber := 0 }

/-- `HasPC`: `(int(p.Indicator) & 0x1) == 1`. -/
def HasPC (p : PartyAddress) : Bool := p.Indicator &&& 0x1 == 1

/-- `HasSSN`: `(int(p.Indicator) >> 1 & 0x1) == 1`. -/
def HasSSN (p : PartyAddress) : Bool := (p.Indicator >>> 1) &&& 0x1 == 1

/-- `GTI`: `(int(p.Indicator) >> 2 & 0xf)`. -/
def GTI (p : PartyAddress) : Nat := (p.Indicator >>> 2) &&& 0xf

/-- `RouteOnGT`: `(int(p.Indicator) >> 6 & 0x1) == 0`. -/
def RouteOnGT (p : PartyAddress) : Bool := (p.Indicator >>> 6) &&& 0x1 == 0

/-- `IsOddDigits`: `p.EncodingScheme == 1`. -/
def IsOddDigits (p : PartyAddress) : Bool := p.EncodingScheme == 1

/-- `MarshalLen`, transcribing the Go `switch` on `p.GTI()` verbatim. -/
def MarshalLen (p : PartyAddress) : Nat :=
  2 + p.GlobalTitleInfo.length
    + (if p.HasPC then 2 else 0)
    + (if p.HasSSN then 1 else 0)
    + (if p.GTI = 1 then 1
       else if p.GTI = 2 then 1
       else if p.GTI = 3 then 2
       else if p.GTI = 4 then 3
       else 0)

/-- `SetLength`: the source recomputes the byte count with its own copy of
the `switch` (not by calling `MarshalLen`) and stores `uint8(l)`. -/
def SetLength (p : PartyAddress) : PartyAddress :=
  { p with Length :=
      (1 + p.GlobalTitleInfo.length
        + (if p.HasPC then 2 else 0)
        + (if p.HasSSN then 1 else 0)
        + (if p.GTI = 1 then 1
           else if p.GTI = 2 then 1
           else if p.GTI = 3 then 2
           else if p.GTI = 4 then 3
           else 0)) % 256 }

/-- The two bytes written for the signaling point code when `HasPC`:
`binary.BigEndian.PutUint16` writes `byte(v >> 8)` then `byte(v)`. -/
def pcBytes (p : PartyAddress) : List Nat :=
  if p.HasPC then [(p.SignalingPointCode >>> 8) % 256, p.SignalingPointCode % 256]
  else []

/-- The subsystem-number byte written when `HasSSN`. -/
def ssnBytes (p : PartyAddress) : List Nat :=
  if p.HasSSN then [p.SubsystemNumber] else []

/-- The GTI-dependent fixed bytes written by `MarshalTo`'s `switch`:
NAI for GTI 1; TT for GTI 2; TT then `uint8(NP<<4 | ES)` for GTI 3; those
plus NAI for GTI 4; nothing otherwise. -/
def gtiBytes (p : PartyAddress) : List Nat :=
  if p.GTI = 1 then [p.NatureOfAddressIndicator]
  else if p.GTI = 2 then [p.TranslationType]
  else if p.GTI = 3 then
    [p.TranslationType, (p.NumberingPlan <<< 4 ||| p.EncodingScheme) % 256]
  else if p.GTI = 4 then
    [p.TranslationType, (p.NumberingPlan <<< 4 ||| p.EncodingScheme) % 256,
     p.NatureOfAddressIndicator]
  else []

/-- `MarshalTo` into a fresh buffer of exactly `MarshalLen` bytes (which is
how `MarshalBinary` calls it): length byte, indicator byte, optional PC and
SSN, GTI-dependent fixed bytes, then `GlobalTitleInfo` copied verbatim (the
final `copy` target region `b[offset:p.MarshalLen()]` has exactly
`len(p.GlobalTitleInfo)` bytes, so the copy is neither truncating nor
leaves zero padding). -/
def MarshalTo (p : PartyAddress) : List Nat :=
  p.Length :: p.Indicator :: (p.pcBytes ++ p.ssnBytes ++ p.gtiBytes ++ p.GlobalTitleInfo)

/-- `MarshalBinary`: allocates a `MarshalLen`-byte buffer and `MarshalTo`s
into it.  It never returns a Go error. -/
def MarshalBinary (p : PartyAddress) : List Nat := p.MarshalTo

end PartyAddress

/-- The spec's GTI-variant table: extra fixed bytes contributed by the GTI
value — 0/1/1/2/3 for GTI 0/1/2/3/4 and 0 for every other GTI value. -/
def gtiExtra (g : Nat) : Nat :=
  if g = 1 then 1 else if g = 2 then 1 else if g = 3 then 2 else if g = 4 then 3 else 0

/-- Number of bytes of fixed fields (length, indicator, optional PC/SSN and
GTI-dependent bytes) implied by an indicator byte `ind`. -/
def indFixedLen (ind : Nat) : Nat :=
  2 + (if ind &&& 0x1 == 1 then 2 else 0)
    + (if (ind >>> 1) &&& 0x1 == 1 then 1 else 0)
    + gtiExtra ((ind >>> 2) &&& 0xf)

namespace PartyAddress

/-- Final step of `UnmarshalBinary`: `infoLen := 1 + int(p.Length) - offset`
(a Go `int`, so the sign test is over `Int`); a negative value is the
"length misfit" error; otherwise `GlobalTitleInfo` is a fresh `infoLen`-byte
buffer filled by `copy(..., b[offset:])` (zero-padded if the source is
shorter; `b[offset:]` itself would panic if `offset > len(b)`). -/
def UnmarshalFinish (b : List Nat) (p : PartyAddress) (offset : Nat) :
    Option (Except UErr PartyAddress) :=
  if (1 + (p.Length : Int) - (offset : Int)) < 0 then
    some (Except.error UErr.misfit)
  else if b.length < offset then
    none
  else
    let info :=
      (b.drop offset ++ List.replicate (1 + p.Length - offset) 0).take
        (1 + p.Length - offset)
    some (Except.ok { p with GlobalTitleInfo := info })

/-- The `switch p.GTI()` of `UnmarshalBinary`.  Each `b[i]` read is modelled
by `List.get?` (`none`, i.e. panic, when out of bounds); the intermediate
`offset >= len(b)` checks of cases 3 and 4 are transcribed verbatim. -/
def UnmarshalGTI (b : List Nat) (p : PartyAddress) (offset : Nat) :
    Option (Except UErr PartyAddress) :=
  if p.GTI = 1 then
    (b.get? offset).bind fun v =>
      UnmarshalFinish b { p with NatureOfAddressIndicator := v } (offset + 1)
  else if p.GTI = 2 then
    (b.get? offset).bind fun v =>
      UnmarshalFinish b { p with TranslationType := v } (offset + 1)
  else if p.GTI = 3 then
    (b.get? offset).bind fun tt =>
      if offset + 1 ≥ b.length then some (Except.error UErr.truncated)
      else
        (b.get? (offset + 1)).bind fun w =>
          UnmarshalFinish b
            { p with TranslationType := tt,
                     NumberingPlan := (w >>> 4) &&& 0xf,
                     EncodingScheme := w &&& 0xf } (offset + 2)
  else if p.GTI = 4 then
    (b.get? offset).bind fun tt =>
      if offset + 2 ≥ b.length then some (Except.error UErr.truncated)
      else
        (b.get? (offset + 1)).bind fun w =>
          (b.get? (offset + 2)).bind fun nai =>
            UnmarshalFinish b
              { p with TranslationType := tt,
                       NumberingPlan := (w >>> 4) &&& 0xf,
                       EncodingScheme := w &&& 0xf,
                       NatureOfAddressIndicator := nai } (offset + 3)
  else UnmarshalFinish b p offset

/-- The subsystem-number step of `UnmarshalBinary`: the read `b[offset]`
happens *before* the `offset >= len(b)` check (transcribed in this order
from the source). -/
def UnmarshalSSN (b : List Nat) (p : PartyAddress) (offset : Nat) :
    Option (Except UErr PartyAddress) :=
  if p.HasSSN then
    (b.get? offset).bind fun v =>
      if offset + 1 ≥ b.length then some (Except.error UErr.truncated)
      else UnmarshalGTI b { p with SubsystemNumber := v } (offset + 1)
  else UnmarshalGTI b p offset

/-- The point-code step of `UnmarshalBinary`: `end := offset + 2` (the
offset here is always 2), rejected when `end >= len(b)`, otherwise
`binary.BigEndian.Uint16(b[2:4])` = `b[2] <<< 8 ||| b[3]`. -/
def UnmarshalPC (b : List Nat) (p : PartyAddress) :
    Option (Except UErr PartyAddress) :=
  if p.HasPC then
    if 4 ≥ b.length then some (Except.error UErr.truncated)
    else
      (b.get? 2).bind fun hi =>
        (b.get? 3).bind fun lo =>
          UnmarshalSSN b { p with SignalingPointCode := hi <<< 8 ||| lo } 4
  else UnmarshalSSN b p 2

/-- `UnmarshalBinary`, decoding into the receiver `p` (fields the wire does
not carry keep the receiver's values, as Go's field assignments do). -/
def UnmarshalBinary (p : PartyAddress) (b : List Nat) :
    Option (Except UErr PartyAddress) :=
  if b.length < 3 then some (Except.error UErr.truncated)
  else
    (b.get? 0).bind fun len =>
      if len ≥ b.length then some (Except.error UErr.truncated)
      else
        (b.get? 1).bind fun ind =>
          UnmarshalPC b { p with Length := len, Indicator := ind }

/-- `GTString` — modelled from the spec: the source's guard
`len( p.GlobalTitleInfo > 0 )` compares a `[]byte` with an `int` and does
not type-check in Go; the spec's design note fixes the intended contract as
"return the empty string when the digit sequence is empty, otherwise render
it" via the external collaborator `utils.SwappedBytesToStr` (outside this
package), taken here as an abstract function argument. -/
def GTString (p : PartyAddress) (swappedBytesToStr : List Nat → Bool → String) :
    String :=
  if 0 < p.GlobalTitleInfo.length then
    swappedBytesToStr p.GlobalTitleInfo p.IsOddDigits
  else ""

end PartyAddress

/-- `NewPartyAddress`: the first argument is stored, wrapped to `uint8`, as
the *entire* indicator byte; `Length` is then set to `uint8(MarshalLen-1)`. -/
def NewPartyAddress (gti spc ssn tt np es nai : Nat) (gt : List Nat) :
    PartyAddress :=
  let p : PartyAddress :=
    { Indicator := gti % 256,
      SignalingPointCode := spc % 65536,
      SubsystemNumber := ssn % 256,
      TranslationType := tt % 256,
      NumberingPlan := np,
      EncodingScheme := es,
      NatureOfAddressIndicator := nai % 256,
      GlobalTitleInfo := gt,
      Length := 0 }
  { p with Length := (p.MarshalLen - 1) % 256 }

/-- `ParsePartyAddress`: decodes into a fresh zero struct, returning either
the populated struct or the error (the Go function returns a `nil` pointer
exactly when the error is non-`nil`). -/
def ParsePartyAddress (b : List Nat) : Option (Except UErr PartyAddress) :=
  PartyAddress.empty.UnmarshalBinary b

/-! ## Helper lemmas -/

theorem get?_of_drop_eq {b : List Nat} {o x : Nat} {t : List Nat}
    (h : b.drop o = x :: t) : b.get? o = some x ∧ b.drop (o + 1) = t := by
  have hlt : o < b.length := List.length_lt_of_drop_ne_nil (by simp [h])
  have h2 := List.drop_eq_getElem_cons (l := b) hlt
  rw [h] at h2
  injection h2 with h3 h4
  refine ⟨?_, h4.symm⟩
  rw [List.get?_eq_getElem?, List.getElem?_eq_getElem hlt, h3]

theorem get?_some_of_lt {b : List Nat} {o : Nat} (h : o < b.length) :
    ∃ v, b.get? o = some v := by
  rw [List.get?_eq_getElem?]
  exact ⟨_, List.getElem?_eq_getElem h⟩

namespace PartyAddress

theorem UnmarshalFinish_isSome (b : List Nat) (p : PartyAddress) (o : Nat)
    (h : p.Length < b.length) : (UnmarshalFinish b p o).isSome := by
  unfold UnmarshalFinish
  split
  · rfl
  · next hneg =>
    have hno : ¬ (b.length < o) := by omega
    rw [if_neg hno]
    rfl

theorem UnmarshalGTI_isSome (b : List Nat) (p : PartyAddress) (o : Nat)
    (hL : p.Length < b.length) (ho : o < b.length) :
    (UnmarshalGTI b p o).isSome := by
  obtain ⟨v, hv⟩ := get?_some_of_lt ho
  unfold UnmarshalGTI
  rw [hv]
  simp only [Option.some_bind]
  split_ifs with hg1 hg2 hg3 hc3 hg4 hc4
  · exact UnmarshalFinish_isSome _ _ _ (by simpa using hL)
  · exact UnmarshalFinish_isSome _ _ _ (by simpa using hL)
  · rfl
  · obtain ⟨w, hw⟩ := get?_some_of_lt (show o + 1 < b.length by omega)
    rw [hw]
    simp only [Option.some_bind]
    exact UnmarshalFinish_isSome _ _ _ (by simpa using hL)
  · rfl
  · obtain ⟨w, hw⟩ := get?_some_of_lt (show o + 1 < b.length by omega)
    obtain ⟨w2, hw2⟩ := get?_some_of_lt (show o + 2 < b.length by omega)
    rw [hw]
    simp only [Option.some_bind]
    rw [hw2]
    simp only [Option.some_bind]
    exact UnmarshalFinish_isSome _ _ _ (by simpa using hL)
  · exact UnmarshalFinish_isSome _ _ _ hL

theorem UnmarshalSSN_isSome (b : List Nat) (p : PartyAddress) (o : Nat)
    (hL : p.Length < b.length) (ho : o < b.length) :
    (UnmarshalSSN b p o).isSome := by
  unfold UnmarshalSSN
  split
  · obtain ⟨v, hv⟩ := get?_some_of_lt ho
    rw [hv]
    simp only [Option.some_bind]
    split
    · rfl
    · next h1 =>
      exact UnmarshalGTI_isSome _ _ _ (by simpa using hL) (by omega)
  · exact UnmarshalGTI_isSome _ _ _ hL ho

theorem UnmarshalPC_isSome (b : List Nat) (p : PartyAddress)
    (hL : p.Length < b.length) (h3 : 3 ≤ b.length) :
    (UnmarshalPC b p).isSome := by
  unfold UnmarshalPC
  split
  · split
    · rfl
    · next h4 =>
      obtain ⟨v, hv⟩ := get?_some_of_lt (show 2 < b.length by omega)
      obtain ⟨w, hw⟩ := get?_some_of_lt (show 3 < b.length by omega)
      rw [hv]
      simp only [Option.some_bind]
      rw [hw]
      simp only [Option.some_bind]
      exact UnmarshalSSN_isSome _ _ _ (by simpa using hL) (by omega)
  · exact UnmarshalSSN_isSome _ _ _ hL (by omega)

theorem UnmarshalBinary_isSome (p : PartyAddress) (b : List Nat) :
    (p.UnmarshalBinary b).isSome := by
  unfold UnmarshalBinary
  split
  · rfl
  · next h3 =>
    obtain ⟨v, hv⟩ := get?_some_of_lt (show 0 < b.length by omega)
    rw [hv]
    simp only [Option.some_bind]
    split
    · rfl
    · next hlen =>
      obtain ⟨w, hw⟩ := get?_some_of_lt (show 1 < b.length by omega)
      rw [hw]
      simp only [Option.some_bind]
      exact UnmarshalPC_isSome _ _ (by simpa using Nat.lt_of_not_le (by omega)) (by omega)

end PartyAddress

/-! ## Arithmetic helpers for byte packing -/

theorem lor_shiftLeft_eq (a c n : Nat) (h : c < 2 ^ n) :
    a <<< n ||| c = 2 ^ n * a + c := by
  rw [Nat.shiftLeft_eq, Nat.mul_comm]
  exact (Nat.mul_add_lt_is_or h a).symm

theorem and_fifteen (x : Nat) : x &&& 15 = x % 16 := by
  have h := Nat.and_pow_two_sub_one_eq_mod x 4
  norm_num at h
  exact h

theorem and_one_eq (x : Nat) : x &&& 1 = x % 2 := Nat.and_one_is_mod x

theorem be16_roundtrip (v : Nat) (h : v < 65536) :
    ((v >>> 8) % 256) <<< 8 ||| v % 256 = v := by
  have h8 : v >>> 8 = v / 256 := by
    rw [Nat.shiftRight_eq_div_pow]
  have hlt : v / 256 < 256 := by omega
  rw [h8, Nat.mod_eq_of_lt hlt, lor_shiftLeft_eq _ _ 8 (by omega),
    show (2 : Nat) ^ 8 = 256 from rfl]
  omega

theorem pack_eq (np es : Nat) (hnp : np < 16) (hes : es < 16) :
    (np <<< 4 ||| es) % 256 = 16 * np + es := by
  rw [lor_shiftLeft_eq np es 4 (by omega), show (2 : Nat) ^ 4 = 16 from rfl]
  omega

theorem unpack_np (np es : Nat) (hnp : np < 16) (hes : es < 16) :
    (((np <<< 4 ||| es) % 256) >>> 4) &&& 0xf = np := by
  rw [pack_eq np es hnp hes, Nat.shiftRight_eq_div_pow, and_fifteen,
    show (2 : Nat) ^ 4 = 16 from rfl]
  omega

theorem unpack_es (np es : Nat) (hnp : np < 16) (hes : es < 16) :
    ((np <<< 4 ||| es) % 256) &&& 0xf = es := by
  rw [pack_eq np es hnp hes, and_fifteen]
  omega

/-! ## Structural lemmas about the encoder -/

namespace PartyAddress

theorem MarshalLen_eq (p : PartyAddress) :
    p.MarshalLen = 2 + (if p.HasPC then 2 else 0) + (if p.HasSSN then 1 else 0)
      + gtiExtra p.GTI + p.GlobalTitleInfo.length := by
  unfold MarshalLen gtiExtra
  split_ifs <;> omega

theorem gtiBytes_length (p : PartyAddress) :
    (p.gtiBytes).length = gtiExtra p.GTI := by
  unfold gtiBytes gtiExtra
  split_ifs <;> rfl

theorem MarshalBinary_length (p : PartyAddress) :
    p.MarshalBinary.length = p.MarshalLen := by
  unfold MarshalBinary MarshalTo MarshalLen pcBytes ssnBytes gtiBytes
  split_ifs <;> simp <;> omega

theorem SetLength_Length (p : PartyAddress) :
    p.SetLength.Length = (p.MarshalLen - 1) % 256 := by
  unfold SetLength MarshalLen
  split_ifs <;> simp <;> congr 1 <;> omega

/-! ## Happy-path reduction lemmas for the decoder -/

theorem UnmarshalBinary_go (p : PartyAddress) (b : List Nat) (L0 I0 : Nat)
    (h3 : ¬ b.length < 3) (h0 : b.get? 0 = some L0)
    (hlt : ¬ L0 ≥ b.length) (h1 : b.get? 1 = some I0) :
    p.UnmarshalBinary b = UnmarshalPC b { p with Length := L0, Indicator := I0 } := by
  unfold UnmarshalBinary
  rw [if_neg h3, h0]
  simp only [Option.some_bind]
  rw [if_neg hlt, h1]
  simp only [Option.some_bind]

theorem UnmarshalPC_pc (b : List Nat) (p : PartyAddress) {hi lo : Nat} {t : List Nat}
    (hpc : p.HasPC = true) (h4 : ¬ 4 ≥ b.length) (hd : b.drop 2 = hi :: lo :: t) :
    UnmarshalPC b p
      = UnmarshalSSN b { p with SignalingPointCode := hi <<< 8 ||| lo } 4 := by
  obtain ⟨h2, hd3⟩ := get?_of_drop_eq hd
  obtain ⟨h3, _⟩ := get?_of_drop_eq hd3
  unfold UnmarshalPC
  simp only [hpc, if_true]
  rw [if_neg h4, h2]
  simp only [Option.some_bind]
  rw [h3]
  simp only [Option.some_bind]

theorem UnmarshalPC_nopc (b : List Nat) (p : PartyAddress) (hpc : p.HasPC = false) :
    UnmarshalPC b p = UnmarshalSSN b p 2 := by
  unfold UnmarshalPC
  simp [hpc]

theorem UnmarshalSSN_ssn (b : List Nat) (p : PartyAddress) (o : Nat) {v : Nat}
    {t : List Nat} (hssn : p.HasSSN = true) (hd : b.drop o = v :: t)
    (hchk : ¬ o + 1 ≥ b.length) :
    UnmarshalSSN b p o = UnmarshalGTI b { p with SubsystemNumber := v } (o + 1) := by
  obtain ⟨hv, _⟩ := get?_of_drop_eq hd
  unfold UnmarshalSSN
  simp only [hssn, if_true]
  rw [hv]
  simp only [Option.some_bind]
  rw [if_neg hchk]

theorem UnmarshalSSN_nossn (b : List Nat) (p : PartyAddress) (o : Nat)
    (hssn : p.HasSSN = false) : UnmarshalSSN b p o = UnmarshalGTI b p o := by
  unfold UnmarshalSSN
  simp [hssn]

theorem UnmarshalGTI_gti1 (b : List Nat) (p : PartyAddress) (o : Nat) {v : Nat}
    {t : List Nat} (hg : p.GTI = 1) (hd : b.drop o = v :: t) :
    UnmarshalGTI b p o
      = UnmarshalFinish b { p with NatureOfAddressIndicator := v } (o + 1) := by
  obtain ⟨hv, _⟩ := get?_of_drop_eq hd
  unfold UnmarshalGTI
  rw [if_pos hg, hv]
  simp only [Option.some_bind]

theorem UnmarshalGTI_gti2 (b : List Nat) (p : PartyAddress) (o : Nat) {v : Nat}
    {t : List Nat} (hg : p.GTI = 2) (hd : b.drop o = v :: t) :
    UnmarshalGTI b p o
      = UnmarshalFinish b { p with TranslationType := v } (o + 1) := by
  obtain ⟨hv, _⟩ := get?_of_drop_eq hd
  unfold UnmarshalGTI
  rw [if_neg (by omega), if_pos hg, hv]
  simp only [Option.some_bind]

theorem UnmarshalGTI_gti3 (b : List Nat) (p : PartyAddress) (o : Nat) {v w : Nat}
    {t : List Nat} (hg : p.GTI = 3) (hd : b.drop o = v :: w :: t)
    (hchk : ¬ o + 1 ≥ b.length) :
    UnmarshalGTI b p o
      = UnmarshalFinish b
          { p with TranslationType := v,
                   NumberingPlan := (w >>> 4) &&& 0xf,
                   EncodingScheme := w &&& 0xf } (o + 2) := by
  obtain ⟨hv, hd2⟩ := get?_of_drop_eq hd
  obtain ⟨hw, _⟩ := get?_of_drop_eq hd2
  unfold UnmarshalGTI
  rw [if_neg (by omega), if_neg (by omega), if_pos hg, hv]
  simp only [Option.some_bind]
  rw [if_neg hchk, hw]
  simp only [Option.some_bind]

theorem UnmarshalGTI_gti4 (b : List Nat) (p : PartyAddress) (o : Nat) {v w u : Nat}
    {t : List Nat} (hg : p.GTI = 4) (hd : b.drop o = v :: w :: u :: t)
    (hchk : ¬ o + 2 ≥ b.length) :
    UnmarshalGTI b p o
      = UnmarshalFinish b
          { p with TranslationType := v,
                   NumberingPlan := (w >>> 4) &&& 0xf,
                   EncodingScheme := w &&& 0xf,
                   NatureOfAddressIndicator := u } (o + 3) := by
  obtain ⟨hv, hd2⟩ := get?_of_drop_eq hd
  obtain ⟨hw, hd3⟩ := get?_of_drop_eq hd2
  obtain ⟨hu, _⟩ := get?_of_drop_eq hd3
  unfold UnmarshalGTI
  rw [if_neg (by omega), if_neg (by omega), if_neg (by omega), if_pos hg, hv]
  simp only [Option.some_bind]
  rw [if_neg hchk, hw]
  simp only [Option.some_bind]
  rw [hu]
  simp only [Option.some_bind]

theorem UnmarshalGTI_other (b : List Nat) (p : PartyAddress) (o : Nat)
    (hg : ¬ (p.GTI = 1 ∨ p.GTI = 2 ∨ p.GTI = 3 ∨ p.GTI = 4)) :
    UnmarshalGTI b p o = UnmarshalFinish b p o := by
  unfold UnmarshalGTI
  rw [if_neg (by omega), if_neg (by omega), if_neg (by omega), if_neg (by omega)]

theorem UnmarshalFinish_ok (b : List Nat) (p : PartyAddress) (o : Nat)
    {g : List Nat} (hd : b.drop o = g) (hb : b.length = o + g.length)
    (hL : 1 + p.Length = o + g.length) :
    UnmarshalFinish b p o = some (Except.ok { p with GlobalTitleInfo := g }) := by
  unfold UnmarshalFinish
  rw [if_neg (by omega), if_neg (by omega)]
  have hlen : 1 + p.Length - o = g.length := by omega
  have htake : (g ++ List.replicate g.length 0).take g.length = g :=
    List.take_left' rfl
  simp only [hd, hlen, htake]

end PartyAddress

namespace PartyAddress

/-- A `PartyAddress` value is well-formed ("valid" in the spec's sense) when
its redundant `Length` field is correctly set, every field fits the Go type
it is declared with, and fields that the indicator says are absent from the
wire hold their zero values (the decoder cannot recover values it never
reads, so these are the only values representable on the wire). -/
def WellFormed (p : PartyAddress) : Prop :=
  p.Length = p.MarshalLen - 1 ∧
  p.Length < 256 ∧
  p.Indicator < 256 ∧
  p.SignalingPointCode < 65536 ∧
  p.SubsystemNumber < 256 ∧
  p.TranslationType < 256 ∧
  p.NumberingPlan < 16 ∧
  p.EncodingScheme < 16 ∧
  p.NatureOfAddressIndicator < 256 ∧
  (p.HasPC = false → p.SignalingPointCode = 0) ∧
  (p.HasSSN = false → p.SubsystemNumber = 0) ∧
  (¬ (p.GTI = 2 ∨ p.GTI = 3 ∨ p.GTI = 4) → p.TranslationType = 0) ∧
  (¬ (p.GTI = 3 ∨ p.GTI = 4) → p.NumberingPlan = 0 ∧ p.EncodingScheme = 0) ∧
  (¬ (p.GTI = 1 ∨ p.GTI = 4) → p.NatureOfAddressIndicator = 0)

instance (p : PartyAddress) : Decidable p.WellFormed := by
  unfold WellFormed
  infer_instance

theorem roundtrip_gti (b : List Nat) (p q : PartyAddress) (o : Nat)
    (hwf : p.WellFormed)
    (hI : q.Indicator = p.Indicator) (hL : q.Length = p.Length)
    (hqtt : q.TranslationType = 0) (hqnp : q.NumberingPlan = 0)
    (hqes : q.EncodingScheme = 0) (hqnai : q.NatureOfAddressIndicator = 0)
    (hd : b.drop o = p.gtiBytes ++ p.GlobalTitleInfo)
    (hblen : b.length = o + (p.gtiBytes).length + p.GlobalTitleInfo.length)
    (hinfo : 1 + q.Length = b.length) :
    UnmarshalGTI b q o = some (Except.ok
      { q with TranslationType := p.TranslationType,
               NumberingPlan := p.NumberingPlan,
               EncodingScheme := p.EncodingScheme,
               NatureOfAddressIndicator := p.NatureOfAddressIndicator,
               GlobalTitleInfo := p.GlobalTitleInfo }) := by
  obtain ⟨hLen, hLenLt, hIndLt, hspcLt, hssnLt, httLt, hnpLt, hesLt, hnaiLt,
    hpc0, hssn0, htt0, hnpes0, hnai0⟩ := hwf
  have hGTI : q.GTI = p.GTI := by unfold GTI; rw [hI]
  obtain ⟨⟨qtt, qnp, qes, qnai, qgt⟩, qL, qI, qspc, qssn⟩ := q
  simp only at hI hL hqtt hqnp hqes hqnai hGTI hinfo
  subst hqtt hqnp hqes hqnai
  by_cases hg1 : p.GTI = 1
  · have hgb : p.gtiBytes = [p.NatureOfAddressIndicator] := by
      simp [gtiBytes, hg1]
    rw [hgb] at hd hblen
    simp only [List.cons_append, List.nil_append] at hd
    simp only [List.length_cons, List.length_nil] at hblen
    rw [UnmarshalGTI_gti1 b _ o (hGTI.trans hg1) hd]
    rw [UnmarshalFinish_ok b _ (o + 1) (get?_of_drop_eq hd).2
      (by omega) (by simp only; omega)]
    have hptt : p.TranslationType = 0 := htt0 (by simp [hg1])
    have hpnp : p.NumberingPlan = 0 := (hnpes0 (by simp [hg1])).1
    have hpes : p.EncodingScheme = 0 := (hnpes0 (by simp [hg1])).2
    rw [hptt, hpnp, hpes]
  · by_cases hg2 : p.GTI = 2
    · have hgb : p.gtiBytes = [p.TranslationType] := by
        simp [gtiBytes, hg2]
      rw [hgb] at hd hblen
      simp only [List.cons_append, List.nil_append] at hd
      simp only [List.length_cons, List.length_nil] at hblen
      rw [UnmarshalGTI_gti2 b _ o (hGTI.trans hg2) hd]
      rw [UnmarshalFinish_ok b _ (o + 1) (get?_of_drop_eq hd).2
        (by omega) (by simp only; omega)]
      have hpnp : p.NumberingPlan = 0 := (hnpes0 (by simp [hg2])).1
      have hpes : p.EncodingScheme = 0 := (hnpes0 (by simp [hg2])).2
      have hpnai : p.NatureOfAddressIndicator = 0 := hnai0 (by simp [hg2])
      rw [hpnp, hpes, hpnai]
    · by_cases hg3 : p.GTI = 3
      · have hgb : p.gtiBytes
            = [p.TranslationType,
               (p.NumberingPlan <<< 4 ||| p.EncodingScheme) % 256] := by
          simp [gtiBytes, hg1, hg2, hg3]
        rw [hgb] at hd hblen
        simp only [List.cons_append, List.nil_append] at hd
        simp only [List.length_cons, List.length_nil] at hblen
        rw [UnmarshalGTI_gti3 b _ o (hGTI.trans hg3) hd (by omega)]
        have hd2 : b.drop (o + 2) = p.GlobalTitleInfo := by
          have h1 := (get?_of_drop_eq hd).2
          have h2 := (get?_of_drop_eq h1).2
          simpa using h2
        rw [UnmarshalFinish_ok b _ (o + 2) hd2 (by omega) (by simp only; omega)]
        have hpnai : p.NatureOfAddressIndicator = 0 := hnai0 (by simp [hg3])
        rw [unpack_np _ _ hnpLt hesLt, unpack_es _ _ hnpLt hesLt, hpnai]
      · by_cases hg4 : p.GTI = 4
        · have hgb : p.gtiBytes
              = [p.TranslationType,
                 (p.NumberingPlan <<< 4 ||| p.EncodingScheme) % 256,
                 p.NatureOfAddressIndicator] := by
            simp [gtiBytes, hg1, hg2, hg3, hg4]
          rw [hgb] at hd hblen
          simp only [List.cons_append, List.nil_append] at hd
          simp only [List.length_cons, List.length_nil] at hblen
          rw [UnmarshalGTI_gti4 b _ o (hGTI.trans hg4) hd (by omega)]
          have hd3 : b.drop (o + 3) = p.GlobalTitleInfo := by
            have h1 := (get?_of_drop_eq hd).2
            have h2 := (get?_of_drop_eq h1).2
            have h3 := (get?_of_drop_eq h2).2
            simpa using h3
          rw [UnmarshalFinish_ok b _ (o + 3) hd3 (by omega) (by simp only; omega)]
          rw [unpack_np _ _ hnpLt hesLt, unpack_es _ _ hnpLt hesLt]
        · have hgb : p.gtiBytes = [] := by
            simp [gtiBytes, hg1, hg2, hg3, hg4]
          rw [hgb] at hd hblen
          simp only [List.nil_append] at hd
          simp only [List.length_nil] at hblen
          rw [UnmarshalGTI_other b _ o (by rw [hGTI]; simp [hg1, hg2, hg3, hg4])]
          rw [UnmarshalFinish_ok b _ o hd (by omega) (by simp only; omega)]
          have hptt : p.TranslationType = 0 := htt0 (by simp [hg2, hg3, hg4])
          have hpnp : p.NumberingPlan = 0 := (hnpes0 (by simp [hg3, hg4])).1
          have hpes : p.EncodingScheme = 0 := (hnpes0 (by simp [hg3, hg4])).2
          have hpnai : p.NatureOfAddressIndicator = 0 := hnai0 (by simp [hg1, hg4])
          rw [hptt, hpnp, hpes, hpnai]

end PartyAddress

attribute [ext] GlobalTitle PartyAddress

namespace PartyAddress

theorem ssnBytes_length (p : PartyAddress) :
    (p.ssnBytes).length = if p.HasSSN then 1 else 0 := by
  unfold ssnBytes
  split_ifs <;> rfl

theorem roundtrip_tail (b : List Nat) (p q : PartyAddress) (o : Nat)
    (hwf : p.WellFormed)
    (hI : q.Indicator = p.Indicator) (hL : q.Length = p.Length)
    (hqtt : q.TranslationType = 0) (hqnp : q.NumberingPlan = 0)
    (hqes : q.EncodingScheme = 0) (hqnai : q.NatureOfAddressIndicator = 0)
    (hqssn : q.SubsystemNumber = 0)
    (hd : b.drop o = p.ssnBytes ++ (p.gtiBytes ++ p.GlobalTitleInfo))
    (hblen : b.length = o + (p.ssnBytes).length + (p.gtiBytes).length
      + p.GlobalTitleInfo.length)
    (hinfo : 1 + q.Length = b.length)
    (htail : 1 ≤ (p.gtiBytes).length + p.GlobalTitleInfo.length) :
    UnmarshalSSN b q o = some (Except.ok
      { q with SubsystemNumber := p.SubsystemNumber,
               TranslationType := p.TranslationType,
               NumberingPlan := p.NumberingPlan,
               EncodingScheme := p.EncodingScheme,
               NatureOfAddressIndicator := p.NatureOfAddressIndicator,
               GlobalTitleInfo := p.GlobalTitleInfo }) := by
  have hSSN : q.HasSSN = p.HasSSN := by unfold HasSSN; rw [hI]
  have hssn0 : p.HasSSN = false → p.SubsystemNumber = 0 :=
    hwf.2.2.2.2.2.2.2.2.2.2.1
  cases hssn : p.HasSSN with
  | false =>
    have hsb : p.ssnBytes = [] := by simp [ssnBytes, hssn]
    rw [hsb] at hd hblen
    simp only [List.nil_append] at hd
    simp only [List.length_nil] at hblen
    rw [UnmarshalSSN_nossn b q o (hSSN.trans hssn)]
    rw [roundtrip_gti b p q o hwf hI hL hqtt hqnp hqes hqnai hd (by omega) hinfo]
    have hpssn : p.SubsystemNumber = 0 := hssn0 hssn
    refine congrArg some (congrArg Except.ok ?_)
    ext <;> simp [hpssn, hqssn]
  | true =>
    have hsb : p.ssnBytes = [p.SubsystemNumber] := by simp [ssnBytes, hssn]
    rw [hsb] at hd hblen
    simp only [List.cons_append, List.nil_append] at hd
    simp only [List.length_cons, List.length_nil] at hblen
    rw [UnmarshalSSN_ssn b q o (hSSN.trans hssn) hd (by omega)]
    rw [roundtrip_gti b p { q with SubsystemNumber := p.SubsystemNumber } (o + 1)
      hwf hI hL hqtt hqnp hqes hqnai (get?_of_drop_eq hd).2 (by omega) hinfo]

theorem roundtrip_parse (p : PartyAddress) (hwf : p.WellFormed)
    (htail : gtiExtra p.GTI ≠ 0 ∨ p.GlobalTitleInfo ≠ []) :
    ParsePartyAddress p.MarshalBinary = some (Except.ok p) := by
  have hwf2 := hwf
  obtain ⟨hLen, hLenLt, hIndLt, hspcLt, hssnLt, httLt, hnpLt, hesLt, hnaiLt,
    hpc0, hssn0, htt0, hnpes0, hnai0⟩ := hwf2
  have hml := p.MarshalLen_eq
  have hgl := p.gtiBytes_length
  have hsl := p.ssnBytes_length
  have hblen := p.MarshalBinary_length
  have htail2 : 1 ≤ (p.gtiBytes).length + p.GlobalTitleInfo.length := by
    rcases htail with h | h
    · rw [hgl]; omega
    · have := List.length_pos.mpr h; omega
  rw [hgl] at htail2
  have h3 : ¬ (p.MarshalBinary).length < 3 := by
    rw [hblen]; omega
  have hLlt : ¬ p.Length ≥ (p.MarshalBinary).length := by
    rw [hblen]; omega
  rw [ParsePartyAddress,
    UnmarshalBinary_go PartyAddress.empty p.MarshalBinary p.Length p.Indicator
      h3 rfl hLlt rfl]
  set q0 : PartyAddress := { empty with Length := p.Length, Indicator := p.Indicator }
    with hq0def
  have hinfo : 1 + p.Length = (p.MarshalBinary).length := by
    rw [hblen]; omega
  have hdrop2 : (p.MarshalBinary).drop 2
      = p.pcBytes ++ (p.ssnBytes ++ (p.gtiBytes ++ p.GlobalTitleInfo)) := by
    show (p.pcBytes ++ p.ssnBytes ++ p.gtiBytes ++ p.GlobalTitleInfo) = _
    simp [List.append_assoc]
  cases hpc : p.HasPC with
  | false =>
    have hpcq : q0.HasPC = false := hpc
    have hpcb : p.pcBytes = [] := by simp [pcBytes, hpc]
    rw [hpcb] at hdrop2
    simp only [List.nil_append] at hdrop2
    rw [UnmarshalPC_nopc _ _ hpcq]
    rw [roundtrip_tail (p.MarshalBinary) p q0 2 hwf rfl rfl rfl rfl rfl rfl rfl
      hdrop2 (by rw [hblen]; simp only [hml, hpc, hsl, Bool.false_eq_true, if_false]; omega)
      hinfo (by rw [hgl]; omega)]
    have hpspc : p.SignalingPointCode = 0 := hpc0 hpc
    refine congrArg some (congrArg Except.ok ?_)
    ext <;> simp [hq0def, PartyAddress.empty, hpspc]
  | true =>
    have hpcq : q0.HasPC = true := hpc
    have hpcb : p.pcBytes
        = [(p.SignalingPointCode >>> 8) % 256, p.SignalingPointCode % 256] := by
      simp [pcBytes, hpc]
    rw [hpcb] at hdrop2
    simp only [List.cons_append, List.nil_append] at hdrop2
    have hlen5 : ¬ 4 ≥ (p.MarshalBinary).length := by
      rw [hblen, hml, hpc]
      simp only [eq_self_iff_true, if_true]
      omega
    rw [UnmarshalPC_pc _ _ hpcq hlen5 hdrop2]
    have hd4 : (p.MarshalBinary).drop 4
        = p.ssnBytes ++ (p.gtiBytes ++ p.GlobalTitleInfo) := by
      have h1 := (get?_of_drop_eq hdrop2).2
      have h2 := (get?_of_drop_eq h1).2
      simpa using h2
    rw [roundtrip_tail (p.MarshalBinary) p
      ({ q0 with SignalingPointCode :=
          ((p.SignalingPointCode >>> 8) % 256) <<< 8 ||| p.SignalingPointCode % 256 })
      4 hwf rfl rfl rfl rfl rfl rfl rfl
      hd4 (by rw [hblen, hml, hpc]; simp only [eq_self_iff_true, if_true, hsl]; omega)
      hinfo (by rw [hgl]; omega)]
    have hspc : ((p.SignalingPointCode >>> 8) % 256) <<< 8
        ||| p.SignalingPointCode % 256 = p.SignalingPointCode :=
      be16_roundtrip _ hspcLt
    refine congrArg some (congrArg Except.ok ?_)
    ext <;> simp [hq0def, PartyAddress.empty, hspc]

end PartyAddress

namespace PartyAddress

/-- The number of fixed-field bytes (length, indicator, optional PC/SSN,
GTI-dependent bytes) implied by a value's own indicator. -/
def fixedLen (p : PartyAddress) : Nat := indFixedLen p.Indicator

theorem fixedLen_eq (p : PartyAddress) :
    p.fixedLen = 2 + (if p.HasPC then 2 else 0) + (if p.HasSSN then 1 else 0)
      + gtiExtra p.GTI := rfl

/-! ## Characterization of successful decodes -/

theorem UnmarshalFinish_char (b : List Nat) (q : PartyAddress) (o : Nat)
    (r : PartyAddress) (h : UnmarshalFinish b q o = some (Except.ok r)) :
    r.Length = q.Length ∧ r.Indicator = q.Indicator ∧
    o ≤ 1 + q.Length ∧ r.GlobalTitleInfo.length = 1 + q.Length - o := by
  unfold UnmarshalFinish at h
  split_ifs at h with h1 h2
  · simp at h
  · simp only [Option.some.injEq, Except.ok.injEq] at h
    obtain rfl := h
    refine ⟨rfl, rfl, by omega, ?_⟩
    simp only [List.length_take, List.length_append, List.length_replicate,
      List.length_drop]
    omega

theorem UnmarshalGTI_char (b : List Nat) (q : PartyAddress) (o : Nat)
    (r : PartyAddress) (h : UnmarshalGTI b q o = some (Except.ok r)) :
    r.Length = q.Length ∧ r.Indicator = q.Indicator ∧
    o + gtiExtra q.GTI ≤ 1 + q.Length ∧
    r.GlobalTitleInfo.length = 1 + q.Length - (o + gtiExtra q.GTI) := by
  unfold UnmarshalGTI at h
  split_ifs at h with hg1 hg2 hg3 hc3 hg4 hc4
  · rw [Option.bind_eq_some] at h
    obtain ⟨v, hv, h⟩ := h
    obtain ⟨hL, hI, hle, hlen⟩ := UnmarshalFinish_char _ _ _ _ h
    simp only at hL hI hle hlen
    have hgx : gtiExtra q.GTI = 1 := by simp [gtiExtra, hg1]
    rw [hgx]
    exact ⟨hL, hI, by omega, by omega⟩
  · rw [Option.bind_eq_some] at h
    obtain ⟨v, hv, h⟩ := h
    obtain ⟨hL, hI, hle, hlen⟩ := UnmarshalFinish_char _ _ _ _ h
    simp only at hL hI hle hlen
    have hgx : gtiExtra q.GTI = 1 := by simp [gtiExtra, hg2]
    rw [hgx]
    exact ⟨hL, hI, by omega, by omega⟩
  · rw [Option.bind_eq_some] at h
    obtain ⟨v, hv, h⟩ := h
    simp at h
  · rw [Option.bind_eq_some] at h
    obtain ⟨v, hv, h⟩ := h
    rw [Option.bind_eq_some] at h
    obtain ⟨w, hw, h⟩ := h
    obtain ⟨hL, hI, hle, hlen⟩ := UnmarshalFinish_char _ _ _ _ h
    simp only at hL hI hle hlen
    have hgx : gtiExtra q.GTI = 2 := by simp [gtiExtra, hg1, hg2, hg3]
    rw [hgx]
    exact ⟨hL, hI, by omega, by omega⟩
  · rw [Option.bind_eq_some] at h
    obtain ⟨v, hv, h⟩ := h
    simp at h
  · rw [Option.bind_eq_some] at h
    obtain ⟨v, hv, h⟩ := h
    rw [Option.bind_eq_some] at h
    obtain ⟨w, hw, h⟩ := h
    rw [Option.bind_eq_some] at h
    obtain ⟨u, hu, h⟩ := h
    obtain ⟨hL, hI, hle, hlen⟩ := UnmarshalFinish_char _ _ _ _ h
    simp only at hL hI hle hlen
    have hgx : gtiExtra q.GTI = 3 := by simp [gtiExtra, hg1, hg2, hg3, hg4]
    rw [hgx]
    exact ⟨hL, hI, by omega, by omega⟩
  · obtain ⟨hL, hI, hle, hlen⟩ := UnmarshalFinish_char _ _ _ _ h
    have hgx : gtiExtra q.GTI = 0 := by simp [gtiExtra, hg1, hg2, hg3, hg4]
    rw [hgx]
    exact ⟨hL, hI, by omega, by omega⟩

theorem UnmarshalSSN_char (b : List Nat) (q : PartyAddress) (o : Nat)
    (r : PartyAddress) (h : UnmarshalSSN b q o = some (Except.ok r)) :
    r.Length = q.Length ∧ r.Indicator = q.Indicator ∧
    o + (if q.HasSSN then 1 else 0) + gtiExtra q.GTI ≤ 1 + q.Length ∧
    r.GlobalTitleInfo.length
      = 1 + q.Length - (o + (if q.HasSSN then 1 else 0) + gtiExtra q.GTI) := by
  unfold UnmarshalSSN at h
  split_ifs at h with hs hc
  · rw [Option.bind_eq_some] at h
    obtain ⟨v, hv, h⟩ := h
    simp at h
  · rw [Option.bind_eq_some] at h
    obtain ⟨v, hv, h⟩ := h
    obtain ⟨hL, hI, hle, hlen⟩ := UnmarshalGTI_char _ _ _ _ h
    have hg : ({ q with SubsystemNumber := v } : PartyAddress).GTI = q.GTI := rfl
    rw [hg] at hle hlen
    simp only at hL hI hle hlen
    simp only [hs, eq_self_iff_true, if_true]
    exact ⟨hL, hI, by omega, by omega⟩
  · obtain ⟨hL, hI, hle, hlen⟩ := UnmarshalGTI_char _ _ _ _ h
    simp only [hs, Bool.false_eq_true, if_false]
    exact ⟨hL, hI, by omega, by omega⟩

theorem UnmarshalPC_char (b : List Nat) (q : PartyAddress)
    (r : PartyAddress) (h : UnmarshalPC b q = some (Except.ok r)) :
    r.Length = q.Length ∧ r.Indicator = q.Indicator ∧
    q.fixedLen ≤ 1 + q.Length ∧
    r.GlobalTitleInfo.length = 1 + q.Length - q.fixedLen := by
  rw [fixedLen_eq]
  unfold UnmarshalPC at h
  split_ifs at h with hp hc
  · simp at h
  · rw [Option.bind_eq_some] at h
    obtain ⟨hi, hhi, h⟩ := h
    rw [Option.bind_eq_some] at h
    obtain ⟨lo, hlo, h⟩ := h
    obtain ⟨hL, hI, hle, hlen⟩ := UnmarshalSSN_char _ _ _ _ h
    have hg : ({ q with SignalingPointCode := hi <<< 8 ||| lo } : PartyAddress).GTI
        = q.GTI := rfl
    have hs2 : ({ q with SignalingPointCode := hi <<< 8 ||| lo } : PartyAddress).HasSSN
        = q.HasSSN := rfl
    rw [hg, hs2] at hle hlen
    simp only at hL hI hle hlen
    simp only [hp, eq_self_iff_true, if_true]
    exact ⟨hL, hI, by omega, by omega⟩
  · obtain ⟨hL, hI, hle, hlen⟩ := UnmarshalSSN_char _ _ _ _ h
    simp only [hp, Bool.false_eq_true, if_false]
    exact ⟨hL, hI, by omega, by omega⟩

end PartyAddress

namespace PartyAddress

theorem UnmarshalBinary_char (p0 : PartyAddress) (b : List Nat) (r : PartyAddress)
    (h : p0.UnmarshalBinary b = some (Except.ok r)) :
    1 + r.Length = r.fixedLen + r.GlobalTitleInfo.length ∧
    b.get? 0 = some r.Length ∧ b.get? 1 = some r.Indicator ∧
    r.Length < b.length := by
  unfold UnmarshalBinary at h
  split_ifs at h with h3
  · simp at h
  · rw [Option.bind_eq_some] at h
    obtain ⟨len, hlen, h⟩ := h
    split_ifs at h with hge
    · simp at h
    · rw [Option.bind_eq_some] at h
      obtain ⟨ind, hind, h⟩ := h
      obtain ⟨hL, hI, hle, hglen⟩ := UnmarshalPC_char _ _ _ h
      have hL2 : r.Length = len := hL
      have hI2 : r.Indicator = ind := hI
      have hfl : ({ p0 with Length := len, Indicator := ind } : PartyAddress).fixedLen
          = r.fixedLen := by
        unfold fixedLen
        rw [hI2]
      rw [hfl] at hle hglen
      simp only at hle hglen
      refine ⟨by omega, ?_, ?_, ?_⟩
      · rw [hL2]; exact hlen
      · rw [hI2]; exact hind
      · rw [hL2]; omega

/-! ## The misfit (negative infoLen) error path -/

theorem UnmarshalFinish_misfit (b : List Nat) (q : PartyAddress) (o : Nat)
    (h : 1 + q.Length < o) :
    UnmarshalFinish b q o = some (Except.error UErr.misfit) := by
  unfold UnmarshalFinish
  rw [if_pos (by omega)]

theorem UnmarshalGTI_misfit (b : List Nat) (q : PartyAddress) (o : Nat)
    (ho : o < b.length)
    (h34 : q.GTI = 3 ∨ q.GTI = 4 → o + gtiExtra q.GTI ≤ b.length)
    (h : 1 + q.Length < o + gtiExtra q.GTI) :
    UnmarshalGTI b q o = some (Except.error UErr.misfit) := by
  unfold UnmarshalGTI
  by_cases hg1 : q.GTI = 1
  · have hgx : gtiExtra q.GTI = 1 := by simp [gtiExtra, hg1]
    rw [hgx] at h
    obtain ⟨v, hv⟩ := get?_some_of_lt ho
    rw [if_pos hg1, hv]
    simp only [Option.some_bind]
    exact UnmarshalFinish_misfit _ _ _ h
  · by_cases hg2 : q.GTI = 2
    · have hgx : gtiExtra q.GTI = 1 := by simp [gtiExtra, hg2]
      rw [hgx] at h
      obtain ⟨v, hv⟩ := get?_some_of_lt ho
      rw [if_neg hg1, if_pos hg2, hv]
      simp only [Option.some_bind]
      exact UnmarshalFinish_misfit _ _ _ h
    · by_cases hg3 : q.GTI = 3
      · have hgx : gtiExtra q.GTI = 2 := by simp [gtiExtra, hg1, hg2, hg3]
        rw [hgx] at h
        have hb : o + 2 ≤ b.length := hgx ▸ h34 (Or.inl hg3)
        obtain ⟨v, hv⟩ := get?_some_of_lt (show o < b.length by omega)
        obtain ⟨w, hw⟩ := get?_some_of_lt (show o + 1 < b.length by omega)
        rw [if_neg hg1, if_neg hg2, if_pos hg3, hv]
        simp only [Option.some_bind]
        rw [if_neg (by omega), hw]
        simp only [Option.some_bind]
        exact UnmarshalFinish_misfit _ _ _ (by show 1 + q.Length < o + 2; omega)
      · by_cases hg4 : q.GTI = 4
        · have hgx : gtiExtra q.GTI = 3 := by simp [gtiExtra, hg1, hg2, hg3, hg4]
          rw [hgx] at h
          have hb : o + 3 ≤ b.length := hgx ▸ h34 (Or.inr hg4)
          obtain ⟨v, hv⟩ := get?_some_of_lt (show o < b.length by omega)
          obtain ⟨w, hw⟩ := get?_some_of_lt (show o + 1 < b.length by omega)
          obtain ⟨u, hu⟩ := get?_some_of_lt (show o + 2 < b.length by omega)
          rw [if_neg hg1, if_neg hg2, if_neg hg3, if_pos hg4, hv]
          simp only [Option.some_bind]
          rw [if_neg (by omega), hw]
          simp only [Option.some_bind]
          rw [hu]
          simp only [Option.some_bind]
          exact UnmarshalFinish_misfit _ _ _ (by show 1 + q.Length < o + 3; omega)
        · have hgx : gtiExtra q.GTI = 0 := by simp [gtiExtra, hg1, hg2, hg3, hg4]
          rw [hgx] at h
          rw [if_neg hg1, if_neg hg2, if_neg hg3, if_neg hg4]
          exact UnmarshalFinish_misfit _ _ _ (by omega)

theorem UnmarshalSSN_misfit (b : List Nat) (q : PartyAddress) (o : Nat)
    (ho : o < b.length)
    (hss : q.HasSSN = true → o + 2 ≤ b.length)
    (h34 : q.GTI = 3 ∨ q.GTI = 4 →
      o + (if q.HasSSN then 1 else 0) + gtiExtra q.GTI ≤ b.length)
    (h : 1 + q.Length < o + (if q.HasSSN then 1 else 0) + gtiExtra q.GTI) :
    UnmarshalSSN b q o = some (Except.error UErr.misfit) := by
  unfold UnmarshalSSN
  cases hs : q.HasSSN with
  | true =>
    simp only [hs, eq_self_iff_true, if_true] at h34 h ⊢
    have hb2 : o + 2 ≤ b.length := hss hs
    obtain ⟨v, hv⟩ := get?_some_of_lt ho
    rw [hv]
    simp only [Option.some_bind]
    rw [if_neg (by omega)]
    exact UnmarshalGTI_misfit _ _ _ (by omega)
      (fun hg => by show o + 1 + gtiExtra q.GTI ≤ b.length; exact h34 hg)
      (by show 1 + q.Length < o + 1 + gtiExtra q.GTI; omega)
  | false =>
    simp only [hs, Bool.false_eq_true, if_false] at h34 h ⊢
    exact UnmarshalGTI_misfit _ _ _ ho (fun hg => by omega) (by omega)

theorem UnmarshalPC_misfit (b : List Nat) (q : PartyAddress)
    (h3 : 3 ≤ b.length)
    (hpc : q.HasPC = true → 4 < b.length)
    (hss : q.HasSSN = true → 2 + (if q.HasPC then 2 else 0) + 2 ≤ b.length)
    (h34 : q.GTI = 3 ∨ q.GTI = 4 → q.fixedLen ≤ b.length)
    (h : 1 + q.Length < q.fixedLen) :
    UnmarshalPC b q = some (Except.error UErr.misfit) := by
  rw [fixedLen_eq] at h34 h
  unfold UnmarshalPC
  cases hp : q.HasPC with
  | true =>
    simp only [hp, eq_self_iff_true, if_true] at hss h34 h ⊢
    have h4 : 4 < b.length := hpc hp
    rw [if_neg (by omega)]
    obtain ⟨hi, hhi⟩ := get?_some_of_lt (show 2 < b.length by omega)
    obtain ⟨lo, hlo⟩ := get?_some_of_lt (show 3 < b.length by omega)
    rw [hhi]
    simp only [Option.some_bind]
    rw [hlo]
    simp only [Option.some_bind]
    refine UnmarshalSSN_misfit _ _ _ (by omega) ?_ ?_ ?_
    · intro hs
      show 4 + 2 ≤ b.length
      exact hss hs
    · intro hg
      show 4 + (if q.HasSSN then 1 else 0) + gtiExtra q.GTI ≤ b.length
      have := h34 hg
      omega
    · show 1 + q.Length < 4 + (if q.HasSSN then 1 else 0) + gtiExtra q.GTI
      omega
  | false =>
    simp only [hp, Bool.false_eq_true, if_false] at hss h34 h ⊢
    refine UnmarshalSSN_misfit _ _ _ (by omega) ?_ ?_ ?_
    · intro hs
      show 2 + 2 ≤ b.length
      have := hss hs
      omega
    · intro hg
      show 2 + (if q.HasSSN then 1 else 0) + gtiExtra q.GTI ≤ b.length
      have := h34 hg
      omega
    · show 1 + q.Length < 2 + (if q.HasSSN then 1 else 0) + gtiExtra q.GTI
      omega

theorem UnmarshalBinary_misfit (p0 : PartyAddress) (b : List Nat) {L0 I0 : Nat}
    (h0 : b.get? 0 = some L0) (h1 : b.get? 1 = some I0)
    (h3 : 3 ≤ b.length) (hlb : L0 < b.length)
    (hpc : (I0 &&& 0x1 == 1) = true → 4 < b.length)
    (hss : ((I0 >>> 1) &&& 0x1 == 1) = true →
      2 + (if I0 &&& 0x1 == 1 then 2 else 0) + 2 ≤ b.length)
    (h34 : (I0 >>> 2) &&& 0xf = 3 ∨ (I0 >>> 2) &&& 0xf = 4 →
      indFixedLen I0 ≤ b.length)
    (hm : 1 + L0 < indFixedLen I0) :
    p0.UnmarshalBinary b = some (Except.error UErr.misfit) := by
  rw [UnmarshalBinary_go p0 b L0 I0 (by omega) h0 (by omega) h1]
  exact UnmarshalPC_misfit _ _ h3 hpc hss h34 hm

/-! ## Entry checks of the decoder -/

theorem UnmarshalBinary_short (p0 : PartyAddress) (b : List Nat)
    (h : b.length < 3) :
    p0.UnmarshalBinary b = some (Except.error UErr.truncated) := by
  unfold UnmarshalBinary
  rw [if_pos h]

theorem UnmarshalBinary_lenbig (p0 : PartyAddress) (b : List Nat) {L0 : Nat}
    (h3 : ¬ b.length < 3) (h0 : b.get? 0 = some L0) (hg : L0 ≥ b.length) :
    p0.UnmarshalBinary b = some (Except.error UErr.truncated) := by
  unfold UnmarshalBinary
  rw [if_neg h3, h0]
  simp only [Option.some_bind]
  rw [if_pos hg]

end PartyAddress

/-! ## Shared helper facts for the claim theorems -/

theorem NewPartyAddress_Length (g s n t np es na : Nat) (gt : List Nat) :
    (NewPartyAddress g s n t np es na gt).Length
      = ((NewPartyAddress g s n t np es na gt).MarshalLen - 1) % 256 := rfl

/-- A small decoded value used to witness the decoder leg of the GTI-table
claim: the result of parsing `[2, 0, 0, 0]`. -/
def scenarioSmall : PartyAddress :=
  { PartyAddress.empty with Length := 2, GlobalTitleInfo := [0] }

/-! ## Claim theorems -/

/-- C1, counterexample: the PartyAddress built by the constructor from
indicator `0x00` with empty digits is valid (well-formed, digits within
0–250, length field set by the constructor), yet parsing its own
serialization `[0x01, 0x00]` fails with the truncated-input error instead
of round-tripping, because the decoder requires at least 3 bytes.  So the
round-trip property does not hold for every valid value. -/
theorem C1_roundtrip_cex :
    (NewPartyAddress 0 0 0 0 0 0 0 []).WellFormed ∧
    (NewPartyAddress 0 0 0 0 0 0 0 []).MarshalBinary = [0x01, 0x00] ∧
    ParsePartyAddress (NewPartyAddress 0 0 0 0 0 0 0 []).MarshalBinary
      = some (Except.error UErr.truncated) ∧
    ParsePartyAddress (NewPartyAddress 0 0 0 0 0 0 0 []).MarshalBinary
      ≠ some (Except.ok (NewPartyAddress 0 0 0 0 0 0 0 [])) := by
  refine ⟨by decide, by decide, by decide, by decide⟩

/-- C1, amended: for every well-formed PartyAddress (length field equal to
MarshalLen − 1 and representable in a byte, fields within their Go types,
wire-absent fields zero) whose digit sequence has length 0–250, *and whose
encoding has at least one byte after the optional PC/SSN fields* (the GTI
contributes a fixed byte or the digit string is non-empty — otherwise the
decoder's entry/PC/SSN bounds checks reject the value's own encoding),
parsing the serialization succeeds and returns the value itself, and the
length field equals the wire length minus one. -/
theorem C1_roundtrip_amended (p : PartyAddress) (hwf : p.WellFormed)
    (hdigits : p.GlobalTitleInfo.length ≤ 250)
    (htail : gtiExtra p.GTI ≠ 0 ∨ p.GlobalTitleInfo ≠ []) :
    ParsePartyAddress p.MarshalBinary = some (Except.ok p) ∧
    p.Length = p.MarshalLen - 1 :=
  ⟨PartyAddress.roundtrip_parse p hwf htail, hwf.1⟩

/-- Witness for C1's amended theorem at the scenario-A value. -/
theorem C1_roundtrip_amended_witness :
    (NewPartyAddress 0x12 0 6 0 1 2 3 [0x21, 0x43]).WellFormed ∧
    ParsePartyAddress (NewPartyAddress 0x12 0 6 0 1 2 3 [0x21, 0x43]).MarshalBinary
      = some (Except.ok (NewPartyAddress 0x12 0 6 0 1 2 3 [0x21, 0x43])) :=
  ⟨by decide, (C1_roundtrip_amended _ (by decide) (by decide) (by decide)).1⟩

/-- C2: on every input buffer and every receiver, the decoder returns a
result (success or a typed error) and never `none` — i.e. every byte access
the Go code performs, including the subsystem-number read that precedes its
bounds check, is in bounds, and the function never panics. -/
theorem C2_no_oob :
    ∀ (p : PartyAddress) (b : List Nat),
      ∃ r : Except UErr PartyAddress, p.UnmarshalBinary b = some r := by
  intro p b
  exact Option.isSome_iff_exists.mp (PartyAddress.UnmarshalBinary_isSome p b)

set_option maxRecDepth 4000 in
/-- C3, counterexample: for the value with 255 digit bytes and length field
set by SetLength, MarshalLen is 257, the stored length byte wraps to
`uint8(256) = 0`, and the first byte of the serialization is 0, not
MarshalLen − 1 = 256.  So "the first byte equals the byte count minus one"
fails for values whose wire length exceeds 256. -/
theorem C3_length_cex :
    (({ PartyAddress.empty with GlobalTitleInfo := List.replicate 255 0
        } : PartyAddress).SetLength).MarshalLen = 257 ∧
    (({ PartyAddress.empty with GlobalTitleInfo := List.replicate 255 0
        } : PartyAddress).SetLength).MarshalBinary.get? 0
      ≠ some ((({ PartyAddress.empty with GlobalTitleInfo := List.replicate 255 0
        } : PartyAddress).SetLength).MarshalLen - 1) := by
  refine ⟨by decide, by decide⟩

/-- C3, amended: serialization always produces exactly MarshalLen bytes;
SetLength and NewPartyAddress both store `(MarshalLen − 1) mod 256` in the
length field (so the three length computations agree as bytes); and for
every value with MarshalLen ≤ 256 whose length was set by SetLength the
first serialized byte equals MarshalLen − 1 exactly. -/
theorem C3_length_agreement :
    (∀ p : PartyAddress, p.MarshalBinary.length = p.MarshalLen) ∧
    (∀ p : PartyAddress, p.SetLength.Length = (p.MarshalLen - 1) % 256) ∧
    (∀ (g s n t np es na : Nat) (gt : List Nat),
      (NewPartyAddress g s n t np es na gt).Length
        = ((NewPartyAddress g s n t np es na gt).MarshalLen - 1) % 256) ∧
    (∀ p : PartyAddress, p.MarshalLen ≤ 256 →
      p.SetLength.MarshalBinary.get? 0 = some (p.MarshalLen - 1)) := by
  refine ⟨PartyAddress.MarshalBinary_length, PartyAddress.SetLength_Length,
    NewPartyAddress_Length, ?_⟩
  intro p h
  have h0 : p.SetLength.MarshalBinary.get? 0 = some p.SetLength.Length := rfl
  rw [h0, PartyAddress.SetLength_Length]
  have h2 : p.MarshalLen - 1 < 256 := by omega
  rw [Nat.mod_eq_of_lt h2]

/-- Witness for C3's amended theorem at a concrete small value. -/
theorem C3_length_agreement_witness :
    PartyAddress.empty.MarshalLen ≤ 256 ∧
    PartyAddress.empty.SetLength.MarshalBinary.get? 0
      = some (PartyAddress.empty.MarshalLen - 1) :=
  ⟨by decide, C3_length_agreement.2.2.2 PartyAddress.empty (by decide)⟩

/-- C4: the decoder fails with the truncated-input error on every buffer of
fewer than 3 bytes (in particular on `[0x07, 0x12]`), fails with the
truncated-input error whenever the declared length byte is ≥ the total
buffer length, and on a buffer passing both checks it proceeds to field
parsing (the PC/SSN/GTI stage) with the length and indicator bytes read. -/
theorem C4_entry_checks :
    (∀ (p0 : PartyAddress) (b : List Nat), b.length < 3 →
      p0.UnmarshalBinary b = some (Except.error UErr.truncated)) ∧
    (ParsePartyAddress [0x07, 0x12] = some (Except.error UErr.truncated)) ∧
    (∀ (p0 : PartyAddress) (b : List Nat) (L0 : Nat), 3 ≤ b.length →
      b.get? 0 = some L0 → L0 ≥ b.length →
      p0.UnmarshalBinary b = some (Except.error UErr.truncated)) ∧
    (∀ (p0 : PartyAddress) (b : List Nat) (L0 I0 : Nat), 3 ≤ b.length →
      b.get? 0 = some L0 → b.get? 1 = some I0 → L0 < b.length →
      p0.UnmarshalBinary b
        = PartyAddress.UnmarshalPC b { p0 with Length := L0, Indicator := I0 }) := by
  refine ⟨fun p0 b h => PartyAddress.UnmarshalBinary_short p0 b h, by decide,
    ?_, ?_⟩
  · intro p0 b L0 h3 h0 hg
    exact PartyAddress.UnmarshalBinary_lenbig p0 b (by omega) h0 hg
  · intro p0 b L0 I0 h3 h0 h1 hlt
    exact PartyAddress.UnmarshalBinary_go p0 b L0 I0 (by omega) h0 (by omega) h1

/-- Witness for C4 at concrete buffers. -/
theorem C4_entry_checks_witness :
    PartyAddress.empty.UnmarshalBinary [1, 2] = some (Except.error UErr.truncated) ∧
    PartyAddress.empty.UnmarshalBinary [3, 0, 0] = some (Except.error UErr.truncated) ∧
    PartyAddress.empty.UnmarshalBinary [1, 0, 9]
      = PartyAddress.UnmarshalPC [1, 0, 9]
          { PartyAddress.empty with Length := 1, Indicator := 0 } :=
  ⟨C4_entry_checks.1 _ _ (by decide),
   C4_entry_checks.2.2.1 _ _ 3 (by decide) rfl (by decide),
   C4_entry_checks.2.2.2 _ _ 1 0 (by decide) rfl rfl (by decide)⟩

/-- C5: the length-misfit error is a distinct error value from the
truncated-input error; it is reachable (buffer `[2, 1, 0, 0, 0]` declares
length 2 but its indicator requires a 2-byte point code, making the
computed digit length negative); and in general every buffer that passes
the entry checks and every bounds check the decoder performs on it (4 <
len(b) when a point code is present; a byte after the subsystem number when
one is present; the GTI-3/GTI-4 intermediate checks) but whose
indicator-implied fixed fields exceed `1 + length` — including buffers the
fixed fields exactly exhaust — is rejected with the misfit error, not a
crash and not a silently truncated digit sequence. -/
theorem C5_misfit_distinct :
    (UErr.misfit ≠ UErr.truncated) ∧
    (ParsePartyAddress [2, 1, 0, 0, 0] = some (Except.error UErr.misfit)) ∧
    (∀ (p0 : PartyAddress) (b : List Nat) (L0 I0 : Nat),
      b.get? 0 = some L0 → b.get? 1 = some I0 → 3 ≤ b.length →
      L0 < b.length →
      ((I0 &&& 0x1 == 1) = true → 4 < b.length) →
      (((I0 >>> 1) &&& 0x1 == 1) = true →
        2 + (if I0 &&& 0x1 == 1 then 2 else 0) + 2 ≤ b.length) →
      ((I0 >>> 2) &&& 0xf = 3 ∨ (I0 >>> 2) &&& 0xf = 4 →
        indFixedLen I0 ≤ b.length) →
      1 + L0 < indFixedLen I0 →
      p0.UnmarshalBinary b = some (Except.error UErr.misfit)) := by
  refine ⟨by decide, by decide, ?_⟩
  intro p0 b L0 I0 h0 h1 h3 hlb hpc hss h34 hm
  exact PartyAddress.UnmarshalBinary_misfit p0 b h0 h1 h3 hlb hpc hss h34 hm

/-- Witness for C5's general misfit statement, both at `[2, 1, 0, 0, 0]`
(point code present) and at `[0, 4, 9]` (GTI 1, fixed fields exactly
exhausting the buffer). -/
theorem C5_misfit_distinct_witness :
    PartyAddress.empty.UnmarshalBinary [2, 1, 0, 0, 0]
      = some (Except.error UErr.misfit) ∧
    PartyAddress.empty.UnmarshalBinary [0, 4, 9]
      = some (Except.error UErr.misfit) :=
  ⟨C5_misfit_distinct.2.2 PartyAddress.empty [2, 1, 0, 0, 0] 2 1 rfl rfl
      (by decide) (by decide) (by decide) (by decide) (by decide) (by decide),
   C5_misfit_distinct.2.2 PartyAddress.empty [0, 4, 9] 0 4 rfl rfl
      (by decide) (by decide) (by decide) (by decide) (by decide) (by decide)⟩

/-- C6: the GTI-variant table contributes exactly 0/1/1/2/3 extra fixed
bytes for GTI 0/1/2/3/4 and 0 for GTI 5–15, and the same table governs all
three views: MarshalLen adds exactly the table value, the encoder writes
exactly the tabulated bytes (NAI for 1; TT for 2; TT and packed NP/ES for
3; those plus NAI for 4; nothing otherwise), and every successful decode
satisfies `1 + length = 2 + PC bytes + SSN byte + table(GTI) + digit count`
over its own indicator. -/
theorem C6_gti_table :
    (gtiExtra 0 = 0 ∧ gtiExtra 1 = 1 ∧ gtiExtra 2 = 1 ∧ gtiExtra 3 = 2 ∧
      gtiExtra 4 = 3 ∧ ∀ g, 5 ≤ g → g ≤ 15 → gtiExtra g = 0) ∧
    (∀ p : PartyAddress, p.MarshalLen
        = 2 + (if p.HasPC then 2 else 0) + (if p.HasSSN then 1 else 0)
          + gtiExtra p.GTI + p.GlobalTitleInfo.length) ∧
    (∀ p : PartyAddress, (p.gtiBytes).length = gtiExtra p.GTI) ∧
    (∀ p : PartyAddress,
      (p.GTI = 1 → p.gtiBytes = [p.NatureOfAddressIndicator]) ∧
      (p.GTI = 2 → p.gtiBytes = [p.TranslationType]) ∧
      (p.GTI = 3 → p.gtiBytes
        = [p.TranslationType,
           (p.NumberingPlan <<< 4 ||| p.EncodingScheme) % 256]) ∧
      (p.GTI = 4 → p.gtiBytes
        = [p.TranslationType,
           (p.NumberingPlan <<< 4 ||| p.EncodingScheme) % 256,
           p.NatureOfAddressIndicator]) ∧
      (¬ (p.GTI = 1 ∨ p.GTI = 2 ∨ p.GTI = 3 ∨ p.GTI = 4) → p.gtiBytes = [])) ∧
    (∀ (b : List Nat) (r : PartyAddress),
      ParsePartyAddress b = some (Except.ok r) →
      1 + r.Length
        = 2 + (if r.HasPC then 2 else 0) + (if r.HasSSN then 1 else 0)
          + gtiExtra r.GTI + r.GlobalTitleInfo.length) := by
  refine ⟨⟨rfl, rfl, rfl, rfl, rfl, ?_⟩, PartyAddress.MarshalLen_eq,
    PartyAddress.gtiBytes_length, ?_, ?_⟩
  · intro g h5 h15
    unfold gtiExtra
    split_ifs <;> omega
  · intro p
    refine ⟨?_, ?_, ?_, ?_, ?_⟩ <;> intro h
    · simp [PartyAddress.gtiBytes, h]
    · simp [PartyAddress.gtiBytes, h]
    · simp [PartyAddress.gtiBytes, h]
    · simp [PartyAddress.gtiBytes, h]
    · simp only [not_or] at h
      obtain ⟨h1, h2, h3, h4⟩ := h
      simp [PartyAddress.gtiBytes, h1, h2, h3, h4]
  · intro b r h
    obtain ⟨h1, _, _, _⟩ := PartyAddress.UnmarshalBinary_char _ _ _ h
    rw [PartyAddress.fixedLen_eq] at h1
    omega

/-- Witness for C6 at a GTI in the 5–15 range and a concrete decode. -/
theorem C6_gti_table_witness :
    (5 ≤ 9 ∧ 9 ≤ 15 ∧ gtiExtra 9 = 0) ∧
    (ParsePartyAddress [2, 0, 0, 0] = some (Except.ok scenarioSmall) ∧
      1 + scenarioSmall.Length
        = 2 + (if scenarioSmall.HasPC then 2 else 0)
          + (if scenarioSmall.HasSSN then 1 else 0)
          + gtiExtra scenarioSmall.GTI + scenarioSmall.GlobalTitleInfo.length) :=
  ⟨⟨by decide, by decide, C6_gti_table.1.2.2.2.2.2 9 (by decide) (by decide)⟩,
   ⟨by decide, C6_gti_table.2.2.2.2 [2, 0, 0, 0] scenarioSmall (by decide)⟩⟩

/-- C7: scenario A — the constructor value with indicator 0x12 (no PC, SSN
present, GTI 4, route-on-GT), SSN 6, TT 0, NP 1, ES 2, NAI 3 and digits
`[0x21, 0x43]` has length byte 7, serializes to exactly
`[0x07, 0x12, 0x06, 0x00, 0x12, 0x03, 0x21, 0x43]`, and parsing that buffer
reproduces every field of the value. -/
theorem C7_scenario_A :
    (NewPartyAddress 0x12 0 6 0 1 2 3 [0x21, 0x43]).Length = 7 ∧
    (NewPartyAddress 0x12 0 6 0 1 2 3 [0x21, 0x43]).MarshalBinary
      = [0x07, 0x12, 0x06, 0x00, 0x12, 0x03, 0x21, 0x43] ∧
    ParsePartyAddress [0x07, 0x12, 0x06, 0x00, 0x12, 0x03, 0x21, 0x43]
      = some (Except.ok (NewPartyAddress 0x12 0 6 0 1 2 3 [0x21, 0x43])) := by
  refine ⟨by decide, by decide, by decide⟩

/-- C8: the digit-string accessor, modelled from the spec's intended
contract because the Go source's guard `len( p.GlobalTitleInfo > 0 )` does
not type-check, returns the empty string exactly when the digit sequence is
empty and otherwise delegates to the external rendering collaborator with
the raw digit bytes and the boolean `EncodingScheme == 1`. -/
theorem C8_gtstring_intent :
    ∀ (f : List Nat → Bool → String) (p : PartyAddress),
      (p.GlobalTitleInfo = [] → p.GTString f = "") ∧
      (p.GlobalTitleInfo ≠ [] →
        p.GTString f = f p.GlobalTitleInfo (p.EncodingScheme == 1)) := by
  intro f p
  constructor
  · intro h
    unfold PartyAddress.GTString
    rw [if_neg (by simp [h])]
  · intro h
    unfold PartyAddress.GTString
    rw [if_pos (List.length_pos.mpr h)]
    rfl

/-- Witness for C8 on an empty and a non-empty digit string. -/
theorem C8_gtstring_intent_witness :
    PartyAddress.empty.GTString (fun _ _ => "X") = "" ∧
    ({ PartyAddress.empty with GlobalTitleInfo := [1] } : PartyAddress).GTString
        (fun _ _ => "X") = "X" :=
  ⟨(C8_gtstring_intent _ _).1 rfl, (C8_gtstring_intent _ _).2 (by decide)⟩

set_option maxRecDepth 4000 in
/-- C9, counterexample: NewPartyAddress with 255 digit bytes produces
MarshalLen 257; the stored Length is `uint8(256) = 0`, not MarshalLen − 1,
so the length invariant does not hold for every constructed value. -/
theorem C9_constructor_cex :
    (NewPartyAddress 0 0 0 0 0 0 0 (List.replicate 255 0)).MarshalLen = 257 ∧
    (NewPartyAddress 0 0 0 0 0 0 0 (List.replicate 255 0)).Length
      ≠ (NewPartyAddress 0 0 0 0 0 0 0 (List.replicate 255 0)).MarshalLen - 1 := by
  refine ⟨by decide, by decide⟩

/-- C9, amended: the first constructor argument is stored (as uint8) as the
whole indicator byte, so the resulting GTI is `(gti >> 2) & 0xf`, bit 0 is
the point-code flag, bit 1 the subsystem-number flag; the Length field is
set to `uint8(MarshalLen − 1)` — i.e. `(MarshalLen − 1) mod 256` — computed
over the stored indicator, which equals MarshalLen − 1 exactly whenever
MarshalLen ≤ 256. -/
theorem C9_constructor_semantics :
    ∀ (g s n t np es na : Nat) (gt : List Nat),
      (NewPartyAddress g s n t np es na gt).Indicator = g % 256 ∧
      (NewPartyAddress g s n t np es na gt).GTI = (g >>> 2) &&& 0xf ∧
      (NewPartyAddress g s n t np es na gt).HasPC = (g &&& 0x1 == 1) ∧
      (NewPartyAddress g s n t np es na gt).HasSSN = ((g >>> 1) &&& 0x1 == 1) ∧
      (NewPartyAddress g s n t np es na gt).Length
        = ((NewPartyAddress g s n t np es na gt).MarshalLen - 1) % 256 ∧
      ((NewPartyAddress g s n t np es na gt).MarshalLen ≤ 256 →
        (NewPartyAddress g s n t np es na gt).Length
          = (NewPartyAddress g s n t np es na gt).MarshalLen - 1) := by
  intro g s n t np es na gt
  have hgti : ((g % 256) >>> 2) &&& 0xf = (g >>> 2) &&& 0xf := by
    rw [Nat.shiftRight_eq_div_pow, Nat.shiftRight_eq_div_pow, and_fifteen,
      and_fifteen, show (2 : Nat) ^ 2 = 4 from rfl]
    omega
  have hpc : (g % 256) &&& 0x1 = g &&& 0x1 := by
    rw [and_one_eq, and_one_eq]
    omega
  have hssn : ((g % 256) >>> 1) &&& 0x1 = (g >>> 1) &&& 0x1 := by
    rw [Nat.shiftRight_eq_div_pow, Nat.shiftRight_eq_div_pow, and_one_eq,
      and_one_eq, show (2 : Nat) ^ 1 = 2 from rfl]
    omega
  refine ⟨rfl, ?_, ?_, ?_, NewPartyAddress_Length g s n t np es na gt, ?_⟩
  · show ((g % 256) >>> 2) &&& 0xf = (g >>> 2) &&& 0xf
    exact hgti
  · show ((g % 256) &&& 0x1 == 1) = (g &&& 0x1 == 1)
    rw [hpc]
  · show (((g % 256) >>> 1) &&& 0x1 == 1) = ((g >>> 1) &&& 0x1 == 1)
    rw [hssn]
  · intro h
    rw [NewPartyAddress_Length g s n t np es na gt,
      Nat.mod_eq_of_lt (by omega)]

/-- Witness for C9's amended theorem at the scenario-A arguments. -/
theorem C9_constructor_semantics_witness :
    (NewPartyAddress 0x12 0 6 0 1 2 3 [0x21, 0x43]).MarshalLen ≤ 256 ∧
    (NewPartyAddress 0x12 0 6 0 1 2 3 [0x21, 0x43]).Length
      = (NewPartyAddress 0x12 0 6 0 1 2 3 [0x21, 0x43]).MarshalLen - 1 :=
  ⟨by decide,
   (C9_constructor_semantics 0x12 0 6 0 1 2 3 [0x21, 0x43]).2.2.2.2.2 (by decide)⟩

/-- C10: ParsePartyAddress is atomic — on every input it returns either a
successfully populated value with no error, or a typed error and no value;
a caller never observes a panic or a partially populated result. -/
theorem C10_parse_atomic :
    ∀ b : List Nat,
      (∃ p : PartyAddress, ParsePartyAddress b = some (Except.ok p)) ∨
      (∃ e : UErr, ParsePartyAddress b = some (Except.error e)) := by
  intro b
  obtain ⟨r, hr⟩ := Option.isSome_iff_exists.mp
    (PartyAddress.UnmarshalBinary_isSome PartyAddress.empty b)
  cases r with
  | ok p => exact Or.inl ⟨p, hr⟩
  | error e => exact Or.inr ⟨e, hr⟩
